import Mathlib

/-!
# Verification of the query-refinement loop

Shallow embedding of the iterative search-refinement control loop of the
AgenticAI literature-review tool (`main.py`, `src/core/models.py`,
`src/core/config.py`, `src/adapters/llms/gemini_adapter.py`), together
with proofs of the behavioural properties stated in the specification.

External collaborators (database search, the LLM judge, the human
reviewer) are modelled as an environment of functions indexed by the
iteration number, so every theorem quantifies over all of their possible
behaviours.  An exception raised by a collaborator is modelled by
`Option` (`none` = the call raised).
-/

namespace AutoQuery

/-- `Record` from `src/core/models.py`: one bibliographic entry.
`abstract` is optional (`Optional[str] = None` in the source). -/
structure Record where
  id : String
  title : String
  abstract : Option String := none
  authors : List String := []
  year : Option Int := none
  doi : Option String := none
deriving DecidableEq

/-- The `Literal["relevant", "irrelevant", "uncertain"]` relevance field of
`Classification` in `src/core/models.py`. -/
inductive Relevance where
  | relevant
  | irrelevant
  | uncertain
deriving DecidableEq

/-- `Classification` from `src/core/models.py`. -/
structure Classification where
  relevance : Relevance
  confidence : ℚ
  reasoning : String
deriving DecidableEq

/-- `QuerySuggestion` from `src/core/models.py`. -/
structure QuerySuggestion where
  critique : String
  new_query : String
  expected_improvement : String
deriving DecidableEq

/-- The `criteria` mapping consumed by `GeminiAdapter.classify`
(`criteria['inclusion']`, `criteria['exclusion']`). -/
structure Criteria where
  inclusion : String
  exclusion : String
deriving DecidableEq

/-- The answer the human gives to `Prompt.ask("Classify",
choices=["relevant", "irrelevant", "skip"])` in `human_review`. -/
inductive HumanChoice where
  | relevant
  | irrelevant
  | skip
deriving DecidableEq

/-- The external collaborators of the loop, indexed by the iteration
number so that each call may answer differently over time:
`search` is `db.search(query, limit)` (returns `[]` rather than raising),
`classify` is `llm.classify(record, criteria)` (`none` = the call raised),
`ask` is the `Prompt.ask` answer inside `human_review`,
`optimize` is `llm.optimize_query(current_query, irrelevant_records)`. -/
structure Env where
  search : Nat → String → Nat → List Record
  classify : Nat → Record → Criteria → Option Classification
  ask : Nat → Record → String → HumanChoice
  optimize : Nat → String → List Record → QuerySuggestion

/-- The validated configuration consumed by `run` in `main.py`
(`config['search']['initial_query']`, `['max_iterations']`,
`['precision_threshold']`, `['max_results_per_iter']`, `config['criteria']`). -/
structure Config where
  initial_query : String
  max_iterations : Nat
  precision_threshold : ℚ
  max_results_per_iter : Nat
  criteria : Criteria

/-- `human_review(record, llm_reason)` from `main.py`.  It prints
`record.abstract[:200]` before asking; when `abstract` is `None` that
expression raises `TypeError` (`None` is not subscriptable), so no human
decision is obtained: modelled as `none`. -/
def human_review (env : Env) (it : Nat) (record : Record) (llm_reason : String) :
    Option HumanChoice :=
  match record.abstract with
  | none => none
  | some _ => some (env.ask it record llm_reason)

/-- The fate of one record inside the classification loop of `run`. -/
inductive Outcome where
  | countedRelevant
  | countedIrrelevant
  | skipped
  | errored
deriving DecidableEq

/-- The per-record body of the classification loop in `run` (`main.py`):
classify, escalate `uncertain` to `human_review`, and either count the
record as relevant, append it to `irrelevant_records`, leave it out
(`skip`), or swallow a raised exception (`errored`). -/
def recordOutcome (env : Env) (criteria : Criteria) (it : Nat) (record : Record) :
    Outcome :=
  match env.classify it record criteria with
  | none => .errored
  | some result =>
    match result.relevance with
    | .relevant => .countedRelevant
    | .irrelevant => .countedIrrelevant
    | .uncertain =>
      match human_review env it record result.reasoning with
      | none => .errored
      | some .relevant => .countedRelevant
      | some .irrelevant => .countedIrrelevant
      | some .skip => .skipped

/-- The classification loop of `run`: fold the per-record outcomes into
`(relevant_count, irrelevant_records)`, preserving the source order of
`irrelevant_records` (the Python code appends while iterating). -/
def tallyWith (f : Record → Outcome) : List Record → Nat × List Record
  | [] => (0, [])
  | r :: rs =>
    let rest := tallyWith f rs
    match f r with
    | .countedRelevant => (rest.1 + 1, rest.2)
    | .countedIrrelevant => (rest.1, r :: rest.2)
    | .skipped => rest
    | .errored => rest

/-- The `(relevant_count, irrelevant_records)` pair produced by one
iteration of `run` on a given list of fetched records. -/
def tally (env : Env) (criteria : Criteria) (it : Nat) (records : List Record) :
    Nat × List Record :=
  tallyWith (recordOutcome env criteria it) records

/-- `precision = relevant_count / total if total > 0 else 0` from `run`. -/
def iterPrecision (env : Env) (criteria : Criteria) (it : Nat)
    (records : List Record) : ℚ :=
  if 0 < records.length then
    Rat.divInt ((tally env criteria it records).1 : Int) (records.length : Int)
  else 0

/-- The `fp_text` string built by `GeminiAdapter.optimize_query` in
`src/adapters/llms/gemini_adapter.py`:
`"\n".join([f"- {r.title}" for r in false_positives[:5]])` — the judge
inspects only the first 5 false positives it is handed. -/
def fpText (false_positives : List Record) : String :=
  String.intercalate "\n" ((false_positives.take 5).map (fun r => "- " ++ r.title))

/-- The reason the loop stopped, per the specification's enum
`{NO_RESULTS, TARGET_REACHED, STOPPED_NO_SIGNAL, MAX_ITERATIONS}`:
`NO_RESULTS` for the `if not records: break`, `TARGET_REACHED` for the
precision break, `STOPPED_NO_SIGNAL` for the final `break` with no
irrelevant records, `MAX_ITERATIONS` for the final `break` with the
iteration budget exhausted (and for a loop whose range is empty). -/
inductive StopReason where
  | NO_RESULTS
  | TARGET_REACHED
  | STOPPED_NO_SIGNAL
  | MAX_ITERATIONS
deriving DecidableEq

/-- The terminal state of `run`, instrumented with the observable calls
the loop made: `iterations` counts executed loop bodies, `searchCalls`
records each `db.search` invocation as `(iteration, query)`, and
`optimizeCalls` records each `llm.optimize_query` invocation as
`(iteration, query passed, irrelevant_records passed)`. -/
structure RunResult where
  finalQuery : String
  finalPrecision : ℚ
  reason : StopReason
  iterations : Nat
  searchCalls : List (Nat × String)
  optimizeCalls : List (Nat × String × List Record)
deriving DecidableEq

/-- The body of the `for iteration in range(1, max_iters + 1)` loop of
`run` (`main.py`), entered at iteration `k` with current query `q`.
`fuel` is the number of iterations the range can still produce
(`max_iterations + 1 - k`, maintained by `runFrom`); it only drives the
structural recursion, every tested condition is the source's own.  Each
branch mirrors one exit or continuation of the source: range exhausted,
empty results, target precision reached, optimise-and-continue, no
irrelevant records, or iteration budget exhausted. -/
def runAux (env : Env) (cfg : Config) : Nat → String → Nat → RunResult
  | 0, q, _ =>
    { finalQuery := q, finalPrecision := 0, reason := .MAX_ITERATIONS,
      iterations := 0, searchCalls := [], optimizeCalls := [] }
  | fuel + 1, q, k =>
    let records := env.search k q cfg.max_results_per_iter
    if records.isEmpty then
      { finalQuery := q, finalPrecision := 0, reason := .NO_RESULTS,
        iterations := 1, searchCalls := [(k, q)], optimizeCalls := [] }
    else
      let t := tally env cfg.criteria k records
      let precision : ℚ :=
        if 0 < records.length then
          Rat.divInt (t.1 : Int) (records.length : Int)
        else 0
      if cfg.precision_threshold ≤ precision then
        { finalQuery := q, finalPrecision := precision, reason := .TARGET_REACHED,
          iterations := 1, searchCalls := [(k, q)], optimizeCalls := [] }
      else if t.2 ≠ [] ∧ k < cfg.max_iterations then
        let suggestion := env.optimize k q t.2
        let rest := runAux env cfg fuel suggestion.new_query (k + 1)
        { finalQuery := rest.finalQuery, finalPrecision := rest.finalPrecision,
          reason := rest.reason, iterations := rest.iterations + 1,
          searchCalls := (k, q) :: rest.searchCalls,
          optimizeCalls := (k, q, t.2) :: rest.optimizeCalls }
      else if t.2 = [] then
        { finalQuery := q, finalPrecision := precision,
          reason := .STOPPED_NO_SIGNAL, iterations := 1,
          searchCalls := [(k, q)], optimizeCalls := [] }
      else
        { finalQuery := q, finalPrecision := precision,
          reason := .MAX_ITERATIONS, iterations := 1,
          searchCalls := [(k, q)], optimizeCalls := [] }

/-- The loop of `run` entered at iteration `k` with current query `q`:
`runAux` supplied with the number of iterations `range(1, max_iters + 1)`
can still produce from `k` on (zero when `k > max_iterations`). -/
def runFrom (env : Env) (cfg : Config) (q : String) (k : Nat) : RunResult :=
  runAux env cfg (cfg.max_iterations + 1 - k) q k

/-- The whole refinement loop of `run`: iterations start at 1 with the
configured initial query. -/
def run (env : Env) (cfg : Config) : RunResult :=
  runFrom env cfg cfg.initial_query 1

/-- The records fetched at iteration `k` when the current query is `q`. -/
def recordsAt (env : Env) (cfg : Config) (k : Nat) (q : String) : List Record :=
  env.search k q cfg.max_results_per_iter

/-- Iteration `k`'s false positives (`irrelevant_records`) when the
current query is `q`. -/
def irrAt (env : Env) (cfg : Config) (k : Nat) (q : String) : List Record :=
  (tally env cfg.criteria k (recordsAt env cfg k q)).2

section UnfoldingLemmas

variable (env : Env) (cfg : Config)

theorem runFrom_of_max_lt (q : String) (k : Nat) (hk : cfg.max_iterations < k) :
    runFrom env cfg q k =
      { finalQuery := q, finalPrecision := 0, reason := .MAX_ITERATIONS,
        iterations := 0, searchCalls := [], optimizeCalls := [] } := by
  unfold runFrom
  have h0 : cfg.max_iterations + 1 - k = 0 := by omega
  rw [h0]
  rfl

theorem runFrom_no_results (q : String) (k : Nat) (hk : k ≤ cfg.max_iterations)
    (hr : recordsAt env cfg k q = []) :
    runFrom env cfg q k =
      { finalQuery := q, finalPrecision := 0, reason := .NO_RESULTS,
        iterations := 1, searchCalls := [(k, q)], optimizeCalls := [] } := by
  obtain ⟨m, hm⟩ : ∃ m, cfg.max_iterations + 1 - k = m + 1 :=
    ⟨cfg.max_iterations - k, by omega⟩
  have hr' : env.search k q cfg.max_results_per_iter = ([] : List Record) := hr
  unfold runFrom
  rw [hm]
  simp only [runAux]
  rw [hr']
  simp

theorem runFrom_target (q : String) (k : Nat) (hk : k ≤ cfg.max_iterations)
    (hr : recordsAt env cfg k q ≠ [])
    (hp : cfg.precision_threshold ≤
      iterPrecision env cfg.criteria k (recordsAt env cfg k q)) :
    runFrom env cfg q k =
      { finalQuery := q,
        finalPrecision := iterPrecision env cfg.criteria k (recordsAt env cfg k q),
        reason := .TARGET_REACHED, iterations := 1,
        searchCalls := [(k, q)], optimizeCalls := [] } := by
  obtain ⟨m, hm⟩ : ∃ m, cfg.max_iterations + 1 - k = m + 1 :=
    ⟨cfg.max_iterations - k, by omega⟩
  have hrne : ¬ (env.search k q cfg.max_results_per_iter).isEmpty = true := by
    simpa [List.isEmpty_iff] using hr
  have hlen : 0 < (env.search k q cfg.max_results_per_iter).length :=
    List.length_pos.mpr hr
  have hp' : cfg.precision_threshold ≤
      Rat.divInt ((tally env cfg.criteria k (env.search k q cfg.max_results_per_iter)).1 : Int)
        ((env.search k q cfg.max_results_per_iter).length : Int) := by
    have hx := hp
    simp only [iterPrecision, recordsAt] at hx
    rwa [if_pos hlen] at hx
  unfold runFrom
  rw [hm]
  simp only [runAux]
  rw [if_neg hrne, if_pos hlen, if_pos hp']
  simp only [iterPrecision, recordsAt]
  rw [if_pos hlen]

theorem runFrom_continue (q : String) (k : Nat) (hk : k ≤ cfg.max_iterations)
    (hr : recordsAt env cfg k q ≠ [])
    (hp : ¬ cfg.precision_threshold ≤
      iterPrecision env cfg.criteria k (recordsAt env cfg k q))
    (hirr : irrAt env cfg k q ≠ []) (hlt : k < cfg.max_iterations) :
    runFrom env cfg q k =
      (let rest := runFrom env cfg (env.optimize k q (irrAt env cfg k q)).new_query (k + 1)
       { finalQuery := rest.finalQuery, finalPrecision := rest.finalPrecision,
         reason := rest.reason, iterations := rest.iterations + 1,
         searchCalls := (k, q) :: rest.searchCalls,
         optimizeCalls := (k, q, irrAt env cfg k q) :: rest.optimizeCalls }) := by
  obtain ⟨m, hm⟩ : ∃ m, cfg.max_iterations + 1 - k = m + 1 :=
    ⟨cfg.max_iterations - k, by omega⟩
  have hm2 : cfg.max_iterations + 1 - (k + 1) = m := by omega
  have hrne : ¬ (env.search k q cfg.max_results_per_iter).isEmpty = true := by
    simpa [List.isEmpty_iff] using hr
  have hlen : 0 < (env.search k q cfg.max_results_per_iter).length :=
    List.length_pos.mpr hr
  have hp' : ¬ cfg.precision_threshold ≤
      Rat.divInt ((tally env cfg.criteria k (env.search k q cfg.max_results_per_iter)).1 : Int)
        ((env.search k q cfg.max_results_per_iter).length : Int) := by
    intro hc
    apply hp
    simp only [iterPrecision, recordsAt]
    rwa [if_pos hlen]
  have hirr' : (tally env cfg.criteria k (env.search k q cfg.max_results_per_iter)).2 ≠
      ([] : List Record) := hirr
  unfold runFrom
  rw [hm, hm2]
  simp only [runAux]
  rw [if_neg hrne, if_pos hlen, if_neg hp', if_pos (And.intro hirr' hlt)]
  simp only [irrAt, recordsAt, tally]

theorem runFrom_no_signal (q : String) (k : Nat) (hk : k ≤ cfg.max_iterations)
    (hr : recordsAt env cfg k q ≠ [])
    (hp : ¬ cfg.precision_threshold ≤
      iterPrecision env cfg.criteria k (recordsAt env cfg k q))
    (hirr : irrAt env cfg k q = []) :
    runFrom env cfg q k =
      { finalQuery := q,
        finalPrecision := iterPrecision env cfg.criteria k (recordsAt env cfg k q),
        reason := .STOPPED_NO_SIGNAL, iterations := 1,
        searchCalls := [(k, q)], optimizeCalls := [] } := by
  obtain ⟨m, hm⟩ : ∃ m, cfg.max_iterations + 1 - k = m + 1 :=
    ⟨cfg.max_iterations - k, by omega⟩
  have hrne : ¬ (env.search k q cfg.max_results_per_iter).isEmpty = true := by
    simpa [List.isEmpty_iff] using hr
  have hlen : 0 < (env.search k q cfg.max_results_per_iter).length :=
    List.length_pos.mpr hr
  have hp' : ¬ cfg.precision_threshold ≤
      Rat.divInt ((tally env cfg.criteria k (env.search k q cfg.max_results_per_iter)).1 : Int)
        ((env.search k q cfg.max_results_per_iter).length : Int) := by
    intro hc
    apply hp
    simp only [iterPrecision, recordsAt]
    rwa [if_pos hlen]
  have hirr' : (tally env cfg.criteria k (env.search k q cfg.max_results_per_iter)).2 =
      ([] : List Record) := hirr
  unfold runFrom
  rw [hm]
  simp only [runAux]
  rw [if_neg hrne, if_pos hlen, if_neg hp',
    if_neg (show ¬ ((tally env cfg.criteria k
      (env.search k q cfg.max_results_per_iter)).2 ≠ ([] : List Record) ∧
      k < cfg.max_iterations) by exact fun hc => hc.1 hirr'),
    if_pos hirr']
  simp only [iterPrecision, recordsAt]
  rw [if_pos hlen]

theorem runFrom_budget (q : String) (k : Nat) (hk : k ≤ cfg.max_iterations)
    (hr : recordsAt env cfg k q ≠ [])
    (hp : ¬ cfg.precision_threshold ≤
      iterPrecision env cfg.criteria k (recordsAt env cfg k q))
    (hirr : irrAt env cfg k q ≠ []) (hge : ¬ k < cfg.max_iterations) :
    runFrom env cfg q k =
      { finalQuery := q,
        finalPrecision := iterPrecision env cfg.criteria k (recordsAt env cfg k q),
        reason := .MAX_ITERATIONS, iterations := 1,
        searchCalls := [(k, q)], optimizeCalls := [] } := by
  obtain ⟨m, hm⟩ : ∃ m, cfg.max_iterations + 1 - k = m + 1 :=
    ⟨cfg.max_iterations - k, by omega⟩
  have hrne : ¬ (env.search k q cfg.max_results_per_iter).isEmpty = true := by
    simpa [List.isEmpty_iff] using hr
  have hlen : 0 < (env.search k q cfg.max_results_per_iter).length :=
    List.length_pos.mpr hr
  have hp' : ¬ cfg.precision_threshold ≤
      Rat.divInt ((tally env cfg.criteria k (env.search k q cfg.max_results_per_iter)).1 : Int)
        ((env.search k q cfg.max_results_per_iter).length : Int) := by
    intro hc
    apply hp
    simp only [iterPrecision, recordsAt]
    rwa [if_pos hlen]
  have hirr' : (tally env cfg.criteria k (env.search k q cfg.max_results_per_iter)).2 ≠
      ([] : List Record) := hirr
  unfold runFrom
  rw [hm]
  simp only [runAux]
  rw [if_neg hrne, if_pos hlen, if_neg hp',
    if_neg (show ¬ ((tally env cfg.criteria k
      (env.search k q cfg.max_results_per_iter)).2 ≠ ([] : List Record) ∧
      k < cfg.max_iterations) by exact fun hc => hge hc.2),
    if_neg hirr']
  simp only [iterPrecision, recordsAt]
  rw [if_pos hlen]

end UnfoldingLemmas

section IterationBound

theorem runAux_iterations_le (env : Env) (cfg : Config) :
    ∀ (fuel : Nat) (q : String) (k : Nat),
      (runAux env cfg fuel q k).iterations ≤ fuel := by
  intro fuel
  induction fuel with
  | zero => intro q k; exact Nat.le_refl 0
  | succ m ih =>
    intro q k
    simp only [runAux]
    split_ifs <;>
      first
        | exact Nat.succ_le_succ (Nat.zero_le m)
        | exact Nat.succ_le_succ (ih _ _)

end IterationBound

section Counting

/-- How many records of the list meet the given fate. -/
def countOutcome (f : Record → Outcome) (o : Outcome) (records : List Record) : Nat :=
  records.countP (fun r => decide (f r = o))

theorem tallyWith_fst (f : Record → Outcome) :
    ∀ records, (tallyWith f records).1 = countOutcome f .countedRelevant records := by
  intro records
  induction records with
  | nil => rfl
  | cons r rs ih =>
    simp only [tallyWith, countOutcome, List.countP_cons]
    cases h : f r <;>
      simp_all [countOutcome, Nat.add_comm]

theorem tallyWith_snd_length (f : Record → Outcome) :
    ∀ records,
      (tallyWith f records).2.length = countOutcome f .countedIrrelevant records := by
  intro records
  induction records with
  | nil => rfl
  | cons r rs ih =>
    simp only [tallyWith, countOutcome, List.countP_cons]
    cases h : f r <;>
      simp_all [countOutcome, Nat.add_comm]

theorem countOutcome_total (f : Record → Outcome) :
    ∀ records,
      countOutcome f .countedRelevant records +
        countOutcome f .countedIrrelevant records +
        countOutcome f .skipped records +
        countOutcome f .errored records = records.length := by
  intro records
  induction records with
  | nil => rfl
  | cons r rs ih =>
    simp only [countOutcome, List.countP_cons, List.length_cons] at *
    cases h : f r <;> simp [h] <;> omega

/-- A record whose fate is `skipped` or `errored` leaves the pair
`(relevant_count, irrelevant_records)` untouched, wherever it sits in the
fetched list. -/
theorem tallyWith_middle_uncounted (f : Record → Outcome) (r : Record)
    (h : f r = .skipped ∨ f r = .errored) :
    ∀ pre post,
      tallyWith f (pre ++ r :: post) = tallyWith f (pre ++ post) := by
  intro pre
  induction pre with
  | nil =>
    intro post
    rcases h with h | h <;> simp [tallyWith, h]
  | cons a pre ih =>
    intro post
    simp only [List.cons_append, tallyWith, List.append_eq, ih post]

end Counting

section Traces

variable (env : Env) (cfg : Config)

/-- The irrelevant records of the iteration-`k` body when the query is `q`,
spelled on the raw collaborator calls (definitionally `irrAt`). -/
def irrBody (k : Nat) (q : String) : List Record :=
  (tally env cfg.criteria k (env.search k q cfg.max_results_per_iter)).2

/-- One step of `runAux` either stops (singleton search trace, no
optimise call) or continues into the recursive call after one optimise
call on this iteration's irrelevant records. -/
theorem runAux_succ_shape (m : Nat) (q : String) (k : Nat) :
    ((runAux env cfg (m + 1) q k).searchCalls = [(k, q)] ∧
      (runAux env cfg (m + 1) q k).optimizeCalls = []) ∨
    ((runAux env cfg (m + 1) q k).searchCalls =
        (k, q) :: (runAux env cfg m
          (env.optimize k q (irrBody env cfg k q)).new_query (k + 1)).searchCalls ∧
      (runAux env cfg (m + 1) q k).optimizeCalls =
        (k, q, irrBody env cfg k q) :: (runAux env cfg m
          (env.optimize k q (irrBody env cfg k q)).new_query (k + 1)).optimizeCalls) := by
  simp only [runAux, irrBody]
  split_ifs <;>
    first
      | exact Or.inl ⟨rfl, rfl⟩
      | exact Or.inr ⟨rfl, rfl⟩

theorem runAux_searchCalls_lb :
    ∀ (fuel : Nat) (q : String) (k n : Nat) (p : String),
      (n, p) ∈ (runAux env cfg fuel q k).searchCalls → k ≤ n := by
  intro fuel
  induction fuel with
  | zero => intro q k n p hmem; simp [runAux] at hmem
  | succ m ih =>
    intro q k n p hmem
    rcases runAux_succ_shape env cfg m q k with ⟨hs, _⟩ | ⟨hs, _⟩
    · rw [hs] at hmem
      simp at hmem
      omega
    · rw [hs] at hmem
      rcases List.mem_cons.mp hmem with heq | hmem
      · cases heq
        exact Nat.le_refl _
      · exact Nat.le_of_succ_le (ih _ _ _ _ hmem)

theorem runAux_searchCalls_start :
    ∀ (fuel : Nat) (q : String) (k : Nat) (p : String),
      (k, p) ∈ (runAux env cfg fuel q k).searchCalls → p = q := by
  intro fuel
  induction fuel with
  | zero => intro q k p hmem; simp [runAux] at hmem
  | succ m ih =>
    intro q k p hmem
    rcases runAux_succ_shape env cfg m q k with ⟨hs, _⟩ | ⟨hs, _⟩
    · rw [hs] at hmem
      simp at hmem
      exact hmem
    · rw [hs] at hmem
      rcases List.mem_cons.mp hmem with heq | hmem
      · cases heq
        rfl
      · exact absurd (runAux_searchCalls_lb env cfg m _ _ _ _ hmem) (by omega)

theorem runAux_searchCalls_unique :
    ∀ (fuel : Nat) (q : String) (k n : Nat) (p₁ p₂ : String),
      (n, p₁) ∈ (runAux env cfg fuel q k).searchCalls →
      (n, p₂) ∈ (runAux env cfg fuel q k).searchCalls → p₁ = p₂ := by
  intro fuel
  induction fuel with
  | zero => intro q k n p₁ p₂ h₁ _; simp [runAux] at h₁
  | succ m ih =>
    intro q k n p₁ p₂ h₁ h₂
    rcases runAux_succ_shape env cfg m q k with ⟨hs, _⟩ | ⟨hs, _⟩
    · rw [hs] at h₁ h₂
      simp at h₁ h₂
      rw [h₁.2, h₂.2]
    · rw [hs] at h₁ h₂
      rcases List.mem_cons.mp h₁ with heq₁ | h₁
      · rcases List.mem_cons.mp h₂ with heq₂ | h₂
        · cases heq₁; cases heq₂; rfl
        · cases heq₁
          exact absurd (runAux_searchCalls_lb env cfg m _ _ _ _ h₂) (by omega)
      · rcases List.mem_cons.mp h₂ with heq₂ | h₂
        · cases heq₂
          exact absurd (runAux_searchCalls_lb env cfg m _ _ _ _ h₁) (by omega)
        · exact ih _ _ _ _ _ h₁ h₂

theorem runAux_optimizeCalls_spec :
    ∀ (fuel : Nat) (q : String) (k n : Nat) (p : String) (irr : List Record),
      (n, p, irr) ∈ (runAux env cfg fuel q k).optimizeCalls →
      (n, p) ∈ (runAux env cfg fuel q k).searchCalls ∧ irr = irrBody env cfg n p := by
  intro fuel
  induction fuel with
  | zero => intro q k n p irr hmem; simp [runAux] at hmem
  | succ m ih =>
    intro q k n p irr hmem
    rcases runAux_succ_shape env cfg m q k with ⟨hs, ho⟩ | ⟨hs, ho⟩
    · rw [ho] at hmem
      simp at hmem
    · rw [ho] at hmem
      rw [hs]
      rcases List.mem_cons.mp hmem with heq | hmem
      · cases heq
        exact ⟨List.mem_cons_self _ _, rfl⟩
      · obtain ⟨hin, hirr⟩ := ih _ _ _ _ _ hmem
        exact ⟨List.mem_cons_of_mem _ hin, hirr⟩

theorem runAux_next_query :
    ∀ (fuel : Nat) (q : String) (k n : Nat) (p : String),
      (n + 1, p) ∈ (runAux env cfg fuel q k).searchCalls → k ≤ n →
      ∃ pn, (n, pn) ∈ (runAux env cfg fuel q k).searchCalls ∧
        (n, pn, irrBody env cfg n pn) ∈ (runAux env cfg fuel q k).optimizeCalls ∧
        p = (env.optimize n pn (irrBody env cfg n pn)).new_query := by
  intro fuel
  induction fuel with
  | zero => intro q k n p hmem _; simp [runAux] at hmem
  | succ m ih =>
    intro q k n p hmem hkn
    rcases runAux_succ_shape env cfg m q k with ⟨hs, _⟩ | ⟨hs, ho⟩
    · rw [hs] at hmem
      simp at hmem
      omega
    · rw [hs, ho]
      rw [hs] at hmem
      rcases List.mem_cons.mp hmem with heq | hmem
      · exfalso
        cases heq
        omega
      · rcases Nat.eq_or_lt_of_le hkn with hkeq | hklt
        · subst hkeq
          have hp : p = (env.optimize k q (irrBody env cfg k q)).new_query :=
            runAux_searchCalls_start env cfg m _ _ _ hmem
          exact ⟨q, List.mem_cons_self _ _, List.mem_cons_self _ _, hp⟩
        · obtain ⟨pn, hin, hopt, hp⟩ := ih _ _ _ _ hmem (by omega)
          exact ⟨pn, List.mem_cons_of_mem _ hin, List.mem_cons_of_mem _ hopt, hp⟩

end Traces

section RawConfiguration

/-- The merged project configuration as `load_project_config`
(`src/core/config.py`) returns it: a dictionary in which any of the five
required fields may still be missing (`none`) — the loader itself never
validates them. -/
structure RawConfig where
  initial_query : Option String
  max_iterations : Option Nat
  precision_threshold : Option ℚ
  max_results_per_iter : Option Nat
  criteria : Option Criteria

/-- The per-record body when the `criteria` key may be missing: the
expression `config['criteria']` is evaluated inside the per-record
`try`, so a missing key raises `KeyError` there and is caught exactly
like a classification failure. -/
def recordOutcomeRaw (env : Env) (criteria : Option Criteria) (it : Nat)
    (record : Record) : Outcome :=
  match criteria with
  | none => .errored
  | some c => recordOutcome env c it record

/-- The loop of `run` over a raw configuration.  `thr` and `mi` were
read before the loop; `config['search']['max_results_per_iter']` is read
anew inside every iteration at the `db.search` call, outside any `try`,
so a missing key raises an uncaught `KeyError` while iteration `k` is in
progress: modelled as `.error ("max_results_per_iter", k)`. -/
def runAuxRaw (env : Env) (raw : RawConfig) (thr : ℚ) (mi : Nat) :
    Nat → String → Nat → Except (String × Nat) RunResult
  | 0, q, _ =>
    .ok { finalQuery := q, finalPrecision := 0, reason := .MAX_ITERATIONS,
          iterations := 0, searchCalls := [], optimizeCalls := [] }
  | fuel + 1, q, k =>
    match raw.max_results_per_iter with
    | none => .error ("max_results_per_iter", k)
    | some limit =>
      let records := env.search k q limit
      if records.isEmpty then
        .ok { finalQuery := q, finalPrecision := 0, reason := .NO_RESULTS,
              iterations := 1, searchCalls := [(k, q)], optimizeCalls := [] }
      else
        let t := tallyWith (recordOutcomeRaw env raw.criteria k) records
        let precision : ℚ :=
          if 0 < records.length then
          Rat.divInt (t.1 : Int) (records.length : Int)
        else 0
        if thr ≤ precision then
          .ok { finalQuery := q, finalPrecision := precision,
                reason := .TARGET_REACHED, iterations := 1,
                searchCalls := [(k, q)], optimizeCalls := [] }
        else if t.2 ≠ [] ∧ k < mi then
          match runAuxRaw env raw thr mi fuel (env.optimize k q t.2).new_query (k + 1) with
          | .error e => .error e
          | .ok rest =>
            .ok { finalQuery := rest.finalQuery,
                  finalPrecision := rest.finalPrecision,
                  reason := rest.reason, iterations := rest.iterations + 1,
                  searchCalls := (k, q) :: rest.searchCalls,
                  optimizeCalls := (k, q, t.2) :: rest.optimizeCalls }
        else if t.2 = [] then
          .ok { finalQuery := q, finalPrecision := precision,
                reason := .STOPPED_NO_SIGNAL, iterations := 1,
                searchCalls := [(k, q)], optimizeCalls := [] }
        else
          .ok { finalQuery := q, finalPrecision := precision,
                reason := .MAX_ITERATIONS, iterations := 1,
                searchCalls := [(k, q)], optimizeCalls := [] }

/-- `run` from `main.py` on a raw configuration: lines 56-58 read
`initial_query`, `max_iterations` and `precision_threshold` (in that
order) before the loop; an uncaught `KeyError` for field `f` raised
while iteration `k` was in progress is `.error (f, k)`, with `k = 0`
meaning before the first iteration. -/
def runRaw (env : Env) (raw : RawConfig) : Except (String × Nat) RunResult :=
  match raw.initial_query with
  | none => .error ("initial_query", 0)
  | some q0 =>
    match raw.max_iterations with
    | none => .error ("max_iterations", 0)
    | some mi =>
      match raw.precision_threshold with
      | none => .error ("precision_threshold", 0)
      | some thr => runAuxRaw env raw thr mi mi q0 1

/-- Once `max_results_per_iter` is present, the loop can no longer
surface any configuration error: in particular a missing `criteria` key
is swallowed record by record. -/
theorem runAuxRaw_ok (env : Env) (raw : RawConfig) (thr : ℚ) (mi : Nat)
    (limit : Nat) (hmr : raw.max_results_per_iter = some limit) :
    ∀ (fuel : Nat) (q : String) (k : Nat),
      ∃ r, runAuxRaw env raw thr mi fuel q k = .ok r := by
  intro fuel
  induction fuel with
  | zero => intro q k; exact ⟨_, rfl⟩
  | succ m ih =>
    intro q k
    simp only [runAuxRaw, hmr]
    split_ifs
    all_goals try exact ⟨_, rfl⟩
    all_goals
    · obtain ⟨r, hr⟩ := ih (env.optimize k q
        (tallyWith (recordOutcomeRaw env raw.criteria k) (env.search k q limit)).2).new_query
        (k + 1)
      rw [hr]
      exact ⟨_, rfl⟩

end RawConfiguration

deriving instance DecidableEq for Except

section Fixtures

/-- Fixture: a record the judge deems relevant. -/
def recRel : Record := { id := "R", title := "Relevant paper", abstract := some "aa" }

/-- Fixture: a record the judge deems irrelevant. -/
def recIrr : Record := { id := "I", title := "Irrelevant paper", abstract := some "bb" }

/-- Fixture: a record the judge finds uncertain; the human skips it. -/
def recSkip : Record := { id := "U", title := "Uncertain paper", abstract := some "cc" }

/-- Fixture: an uncertain record with no abstract. -/
def recNoAbs : Record := { id := "N", title := "No abstract paper" }

/-- Fixture: a record whose classification call raises. -/
def recErr : Record := { id := "E", title := "Error paper", abstract := some "ee" }

/-- Fixture judge: raises on `recErr`, classifies by record id. -/
def classW : Nat → Record → Criteria → Option Classification := fun _ r _ =>
  if r.id = "E" then none
  else some
    { relevance :=
        if r.id = "R" then .relevant
        else if r.id = "I" then .irrelevant
        else .uncertain,
      confidence := 1, reasoning := "rr" }

/-- Fixture environment: two hits on iteration 1 (one false positive),
one relevant hit on iteration 2; the human always answers skip; the
optimiser appends a "+" to the query. -/
def envW : Env :=
  { search := fun it _ _ =>
      if it = 1 then [recRel, recIrr] else if it = 2 then [recRel] else [],
    classify := classW,
    ask := fun _ _ _ => .skip,
    optimize := fun _ q _ =>
      { critique := "cc", new_query := q ++ "+", expected_improvement := "ii" } }

/-- Fixture criteria. -/
def critW : Criteria := { inclusion := "inc", exclusion := "exc" }

/-- Fixture configuration: three iterations, precision target 4/5. -/
def cfgW : Config :=
  { initial_query := "Q", max_iterations := 3, precision_threshold := mkRat 4 5,
    max_results_per_iter := 10, criteria := critW }

/-- Fixture raw configuration with every required field except
`criteria`. -/
def rawC : RawConfig :=
  { initial_query := some "Q", max_iterations := some 3,
    precision_threshold := some (mkRat 4 5), max_results_per_iter := some 10,
    criteria := none }

/-- Fixture raw configuration missing only `initial_query`. -/
def rawNoInit : RawConfig :=
  { initial_query := none, max_iterations := some 3,
    precision_threshold := some (mkRat 4 5), max_results_per_iter := some 10,
    criteria := some critW }

end Fixtures

section Claims

/-- C1: for every configuration with `max_iterations = N > 0`, the
refinement loop executes at most `N` iterations, regardless of what the
Record Source, the Relevance Judge and the Human Escalation return (the
environment is universally quantified). -/
theorem C1_at_most_max_iterations (env : Env) (cfg : Config)
    (hN : 0 < cfg.max_iterations) :
    (run env cfg).iterations ≤ cfg.max_iterations := by
  have h := runAux_iterations_le env cfg (cfg.max_iterations + 1 - 1)
    cfg.initial_query 1
  unfold run runFrom
  simpa using h

theorem C1_witness :
    0 < cfgW.max_iterations ∧ (run envW cfgW).iterations ≤ cfgW.max_iterations :=
  ⟨by decide, C1_at_most_max_iterations envW cfgW (by decide)⟩

/-- C2: every execution of `run` ends in a terminal state (final query,
final precision, stopping reason) whose reason is exactly one element of
the enum `{NO_RESULTS, TARGET_REACHED, STOPPED_NO_SIGNAL, MAX_ITERATIONS}`. -/
theorem C2_terminal_reason_enum (env : Env) (cfg : Config) :
    (run env cfg).reason = .NO_RESULTS ∨
    (run env cfg).reason = .TARGET_REACHED ∨
    (run env cfg).reason = .STOPPED_NO_SIGNAL ∨
    (run env cfg).reason = .MAX_ITERATIONS := by
  cases h : (run env cfg).reason
  · exact Or.inl rfl
  · exact Or.inr (Or.inl rfl)
  · exact Or.inr (Or.inr (Or.inl rfl))
  · exact Or.inr (Or.inr (Or.inr rfl))

/-- C3: if on iteration `k` the computed precision reaches the threshold,
the loop terminates at iteration `k` (one more loop body, no further
iterations) with `TARGET_REACHED`, issuing no optimise-query call. -/
theorem C3_target_reached_stops (env : Env) (cfg : Config) (q : String) (k : Nat)
    (hk : k ≤ cfg.max_iterations) (hr : recordsAt env cfg k q ≠ [])
    (hp : cfg.precision_threshold ≤
      iterPrecision env cfg.criteria k (recordsAt env cfg k q)) :
    (runFrom env cfg q k).reason = .TARGET_REACHED ∧
    (runFrom env cfg q k).iterations = 1 ∧
    (runFrom env cfg q k).optimizeCalls = [] ∧
    (runFrom env cfg q k).finalPrecision =
      iterPrecision env cfg.criteria k (recordsAt env cfg k q) := by
  rw [runFrom_target env cfg q k hk hr hp]
  exact ⟨rfl, rfl, rfl, rfl⟩

theorem C3_witness :
    (2 ≤ cfgW.max_iterations ∧ recordsAt envW cfgW 2 "Q+" ≠ [] ∧
      cfgW.precision_threshold ≤
        iterPrecision envW cfgW.criteria 2 (recordsAt envW cfgW 2 "Q+")) ∧
    ((runFrom envW cfgW "Q+" 2).reason = .TARGET_REACHED ∧
      (runFrom envW cfgW "Q+" 2).iterations = 1 ∧
      (runFrom envW cfgW "Q+" 2).optimizeCalls = [] ∧
      (runFrom envW cfgW "Q+" 2).finalPrecision =
        iterPrecision envW cfgW.criteria 2 (recordsAt envW cfgW 2 "Q+")) :=
  ⟨⟨by decide, by decide, by decide⟩,
    C3_target_reached_stops envW cfgW "Q+" 2 (by decide) (by decide) (by decide)⟩

/-- C4: on every iteration precision is `relevant_count` divided by the
number of fetched records, with errored and human-skipped records still
counted in the denominator, and `0` when the total is `0`. -/
theorem C4_precision_formula (env : Env) (criteria : Criteria) (it : Nat)
    (records : List Record) :
    iterPrecision env criteria it records =
      if records.length = 0 then 0
      else
        ((countOutcome (recordOutcome env criteria it) .countedRelevant records : ℚ) /
          ((countOutcome (recordOutcome env criteria it) .countedRelevant records +
            countOutcome (recordOutcome env criteria it) .countedIrrelevant records +
            countOutcome (recordOutcome env criteria it) .skipped records +
            countOutcome (recordOutcome env criteria it) .errored records : Nat) : ℚ)) := by
  rcases Nat.eq_zero_or_pos records.length with h0 | hpos
  · simp [iterPrecision, h0]
  · rw [iterPrecision, if_pos hpos, if_neg (by omega), Rat.divInt_eq_div,
      countOutcome_total]
    rw [show tally env criteria it records =
      tallyWith (recordOutcome env criteria it) records from rfl]
    rw [tallyWith_fst]
    push_cast
    rfl

end Claims

/-- A record that ends up `skipped` or `errored` keeps the tallies
unchanged while still enlarging the precision denominator by one. -/
theorem iterPrecision_middle_uncounted (env : Env) (criteria : Criteria)
    (it : Nat) (r : Record) (pre post : List Record)
    (ho : recordOutcome env criteria it r = .skipped ∨
      recordOutcome env criteria it r = .errored) :
    iterPrecision env criteria it (pre ++ r :: post) =
      Rat.divInt ((tally env criteria it (pre ++ post)).1 : Int)
        (((pre ++ post).length + 1 : Nat) : Int) := by
  have ht := tallyWith_middle_uncounted (recordOutcome env criteria it) r ho pre post
  have hlen : (pre ++ r :: post).length = (pre ++ post).length + 1 := by
    simp only [List.length_append, List.length_cons]
    omega
  have hpos : 0 < (pre ++ r :: post).length := by
    rw [hlen]
    exact Nat.succ_pos _
  rw [iterPrecision, if_pos hpos]
  rw [show tally env criteria it (pre ++ r :: post) =
    tally env criteria it (pre ++ post) from ht]
  rw [hlen]

section ClaimsContinued

/-- C5: below threshold with false positives and budget left, the loop
invokes optimise-query with the current query and the full irrelevant
list (only the adapter truncates, to the first 5), adopts the suggested
query for the next iteration, and proceeds; in every other
below-threshold case the loop terminates at once. -/
theorem C5_continuation_rule (env : Env) (cfg : Config) (q : String) (k : Nat)
    (hk : k ≤ cfg.max_iterations) (hr : recordsAt env cfg k q ≠ [])
    (hp : ¬ cfg.precision_threshold ≤
      iterPrecision env cfg.criteria k (recordsAt env cfg k q)) :
    (irrAt env cfg k q ≠ [] ∧ k < cfg.max_iterations →
      (runFrom env cfg q k).optimizeCalls =
        (k, q, irrAt env cfg k q) ::
          (runFrom env cfg (env.optimize k q (irrAt env cfg k q)).new_query
            (k + 1)).optimizeCalls ∧
      (runFrom env cfg q k).searchCalls =
        (k, q) ::
          (runFrom env cfg (env.optimize k q (irrAt env cfg k q)).new_query
            (k + 1)).searchCalls ∧
      (runFrom env cfg q k).iterations =
        (runFrom env cfg (env.optimize k q (irrAt env cfg k q)).new_query
          (k + 1)).iterations + 1 ∧
      fpText (irrAt env cfg k q) = fpText ((irrAt env cfg k q).take 5)) ∧
    (irrAt env cfg k q = [] ∨ ¬ k < cfg.max_iterations →
      (runFrom env cfg q k).iterations = 1 ∧
      (runFrom env cfg q k).optimizeCalls = []) := by
  constructor
  · rintro ⟨hirr, hlt⟩
    rw [runFrom_continue env cfg q k hk hr hp hirr hlt]
    refine ⟨rfl, rfl, rfl, ?_⟩
    simp [fpText, List.take_take]
  · rintro (hirr | hge)
    · rw [runFrom_no_signal env cfg q k hk hr hp hirr]
      exact ⟨rfl, rfl⟩
    · by_cases hirr : irrAt env cfg k q = []
      · rw [runFrom_no_signal env cfg q k hk hr hp hirr]
        exact ⟨rfl, rfl⟩
      · rw [runFrom_budget env cfg q k hk hr hp hirr hge]
        exact ⟨rfl, rfl⟩

theorem C5_witness :
    (runFrom envW cfgW "Q" 1).optimizeCalls =
      (1, "Q", irrAt envW cfgW 1 "Q") ::
        (runFrom envW cfgW (envW.optimize 1 "Q" (irrAt envW cfgW 1 "Q")).new_query
          2).optimizeCalls :=
  (((C5_continuation_rule envW cfgW "Q" 1 (by decide) (by decide)
    (by decide)).1) ⟨by decide, by decide⟩).1

/-- C6: a record whose classification call raises is counted in neither
`relevant_count` nor `irrelevant_records`; the fold simply continues over
the remaining records, so the failure is never fatal. -/
theorem C6_classification_failure (env : Env) (criteria : Criteria)
    (it : Nat) (r : Record) (pre post : List Record)
    (h : env.classify it r criteria = none) :
    recordOutcome env criteria it r = .errored ∧
    tally env criteria it (pre ++ r :: post) = tally env criteria it (pre ++ post) := by
  have ho : recordOutcome env criteria it r = .errored := by
    simp [recordOutcome, h]
  exact ⟨ho, tallyWith_middle_uncounted _ r (Or.inr ho) pre post⟩

theorem C6_witness :
    envW.classify 1 recErr critW = none ∧
    (recordOutcome envW critW 1 recErr = .errored ∧
      tally envW critW 1 ([recRel] ++ recErr :: [recIrr]) =
        tally envW critW 1 ([recRel] ++ [recIrr])) :=
  ⟨by decide,
    C6_classification_failure envW critW 1 recErr [recRel] [recIrr] (by decide)⟩

/-- C7: a record classified uncertain whose human decision is skip is
counted in neither tally, yet the precision denominator still counts it
(numerator over the shorter list, denominator one larger). -/
theorem C7_skip_excluded_still_counted (env : Env) (criteria : Criteria)
    (it : Nat) (r : Record) (c : Classification) (a : String)
    (pre post : List Record)
    (h1 : env.classify it r criteria = some c) (h2 : c.relevance = .uncertain)
    (h3 : r.abstract = some a) (h4 : env.ask it r c.reasoning = .skip) :
    recordOutcome env criteria it r = .skipped ∧
    tally env criteria it (pre ++ r :: post) = tally env criteria it (pre ++ post) ∧
    (pre ++ r :: post).length = (pre ++ post).length + 1 ∧
    iterPrecision env criteria it (pre ++ r :: post) =
      Rat.divInt ((tally env criteria it (pre ++ post)).1 : Int)
        (((pre ++ post).length + 1 : Nat) : Int) := by
  have ho : recordOutcome env criteria it r = .skipped := by
    simp [recordOutcome, h1, h2, human_review, h3, h4]
  refine ⟨ho, tallyWith_middle_uncounted _ r (Or.inl ho) pre post, ?_, ?_⟩
  · simp only [List.length_append, List.length_cons]
    omega
  · exact iterPrecision_middle_uncounted env criteria it r pre post (Or.inl ho)

theorem C7_witness :
    (envW.classify 1 recSkip critW =
      some { relevance := .uncertain, confidence := 1, reasoning := "rr" } ∧
      recSkip.abstract = some "cc" ∧ envW.ask 1 recSkip "rr" = .skip) ∧
    (recordOutcome envW critW 1 recSkip = .skipped ∧
      tally envW critW 1 ([recRel] ++ recSkip :: [recIrr]) =
        tally envW critW 1 ([recRel] ++ [recIrr]) ∧
      ([recRel] ++ recSkip :: [recIrr]).length = ([recRel] ++ [recIrr]).length + 1 ∧
      iterPrecision envW critW 1 ([recRel] ++ recSkip :: [recIrr]) =
        Rat.divInt ((tally envW critW 1 ([recRel] ++ [recIrr])).1 : Int)
          ((([recRel] ++ ([recIrr] : List Record)).length + 1 : Nat) : Int)) :=
  ⟨⟨by decide, by decide, by decide⟩,
    C7_skip_excluded_still_counted envW critW 1 recSkip
      { relevance := .uncertain, confidence := 1, reasoning := "rr" } "cc"
      [recRel] [recIrr] (by decide) (by decide) (by decide) (by decide)⟩

end ClaimsContinued

section ClaimsFinal

/-- C8: in every execution, each optimise-query call at iteration `n`
receives exactly the query searched at iteration `n` and exactly
iteration `n`'s false positives; the query searched at iteration `n + 1`
is precisely the `new_query` of that single call (so `current_query`
changes at most once per iteration, between iterations, only by
assignment from the suggestion, and never from an earlier iteration's
false positives); and each iteration uses a single query throughout. -/
theorem C8_query_provenance (env : Env) (cfg : Config) (n : Nat)
    (qn p : String) (irr : List Record) :
    ((n, qn, irr) ∈ (run env cfg).optimizeCalls →
      (n, qn) ∈ (run env cfg).searchCalls ∧ irr = irrAt env cfg n qn) ∧
    ((n + 1, p) ∈ (run env cfg).searchCalls → 1 ≤ n →
      ∃ pn, (n, pn) ∈ (run env cfg).searchCalls ∧
        (n, pn, irrAt env cfg n pn) ∈ (run env cfg).optimizeCalls ∧
        p = (env.optimize n pn (irrAt env cfg n pn)).new_query) ∧
    ((n, qn) ∈ (run env cfg).searchCalls →
      (n, p) ∈ (run env cfg).searchCalls → qn = p) := by
  refine ⟨?_, ?_, ?_⟩
  · intro hmem
    have hmem' : (n, qn, irr) ∈ (runAux env cfg (cfg.max_iterations + 1 - 1)
        cfg.initial_query 1).optimizeCalls := hmem
    obtain ⟨hs, hi⟩ := runAux_optimizeCalls_spec env cfg _ _ _ _ _ _ hmem'
    exact ⟨hs, hi⟩
  · intro hmem h1n
    have hmem' : (n + 1, p) ∈ (runAux env cfg (cfg.max_iterations + 1 - 1)
        cfg.initial_query 1).searchCalls := hmem
    obtain ⟨pn, hs, ho, hq⟩ := runAux_next_query env cfg _ _ _ _ _ hmem' h1n
    exact ⟨pn, hs, ho, hq⟩
  · intro h₁ h₂
    exact runAux_searchCalls_unique env cfg _ _ _ _ _ _ h₁ h₂

theorem C8_witness :
    (1, "Q") ∈ (run envW cfgW).searchCalls ∧ [recIrr] = irrAt envW cfgW 1 "Q" :=
  (C8_query_provenance envW cfgW 1 "Q" "Q+" [recIrr]).1 (by decide)

/-- C9 counterexample: a configuration with every required field present
except `criteria` is malformed, yet the loop still executes a full
iteration and stops normally — the missing field is never surfaced
before the loop starts, refuting the claim as stated. -/
theorem C9_counterexample :
    rawC.criteria = none ∧
    runRaw envW rawC =
      .ok { finalQuery := "Q", finalPrecision := 0,
            reason := .STOPPED_NO_SIGNAL, iterations := 1,
            searchCalls := [(1, "Q")], optimizeCalls := [] } :=
  ⟨rfl, by decide⟩

/-- C9 (amended): only missing `initial_query`, `max_iterations` or
`precision_threshold` are surfaced before the loop starts.  A missing
`max_results_per_iter` raises only while iteration 1 is already in
progress, and a missing `criteria` is never surfaced at all: whenever
`max_results_per_iter` is present the loop finishes normally, the
per-record handler having swallowed every `criteria` lookup failure. -/
theorem C9_config_error_surfacing (env : Env) (raw : RawConfig) :
    (raw.initial_query = none → runRaw env raw = .error ("initial_query", 0)) ∧
    (∀ q0, raw.initial_query = some q0 → raw.max_iterations = none →
      runRaw env raw = .error ("max_iterations", 0)) ∧
    (∀ q0 mi, raw.initial_query = some q0 → raw.max_iterations = some mi →
      raw.precision_threshold = none →
      runRaw env raw = .error ("precision_threshold", 0)) ∧
    (∀ q0 mi thr, raw.initial_query = some q0 → raw.max_iterations = some mi →
      raw.precision_threshold = some thr → raw.max_results_per_iter = none →
      1 ≤ mi → runRaw env raw = .error ("max_results_per_iter", 1)) ∧
    (∀ q0 mi thr limit, raw.initial_query = some q0 →
      raw.max_iterations = some mi → raw.precision_threshold = some thr →
      raw.max_results_per_iter = some limit →
      ∃ r, runRaw env raw = .ok r) := by
  refine ⟨?_, ?_, ?_, ?_, ?_⟩
  · intro h
    simp [runRaw, h]
  · intro q0 h1 h2
    simp [runRaw, h1, h2]
  · intro q0 mi h1 h2 h3
    simp [runRaw, h1, h2, h3]
  · intro q0 mi thr h1 h2 h3 h4 hmi
    simp only [runRaw, h1, h2, h3]
    obtain ⟨m, rfl⟩ : ∃ m, mi = m + 1 := ⟨mi - 1, by omega⟩
    simp [runAuxRaw, h4]
  · intro q0 mi thr limit h1 h2 h3 h4
    simp only [runRaw, h1, h2, h3]
    exact runAuxRaw_ok env raw thr mi limit h4 mi q0 1

theorem C9_witness : runRaw envW rawNoInit = .error ("initial_query", 0) :=
  (C9_config_error_surfacing envW rawNoInit).1 rfl

/-- C10: an uncertain record with `abstract = None` makes `human_review`
evaluate `record.abstract[:200]` and raise `TypeError` before any human
decision is obtained (the outcome is `errored` for every possible human
responder), so the record lands in neither tally while still enlarging
the precision denominator. -/
theorem C10_none_abstract_escalation (env : Env) (criteria : Criteria)
    (it : Nat) (r : Record) (c : Classification) (pre post : List Record)
    (h1 : env.classify it r criteria = some c) (h2 : c.relevance = .uncertain)
    (h3 : r.abstract = none) :
    human_review env it r c.reasoning = none ∧
    (∀ a : Nat → Record → String → HumanChoice,
      recordOutcome { env with ask := a } criteria it r = .errored) ∧
    tally env criteria it (pre ++ r :: post) = tally env criteria it (pre ++ post) ∧
    iterPrecision env criteria it (pre ++ r :: post) =
      Rat.divInt ((tally env criteria it (pre ++ post)).1 : Int)
        (((pre ++ post).length + 1 : Nat) : Int) := by
  have ho : recordOutcome env criteria it r = .errored := by
    simp [recordOutcome, h1, h2, human_review, h3]
  refine ⟨by simp [human_review, h3], ?_,
    tallyWith_middle_uncounted _ r (Or.inr ho) pre post,
    iterPrecision_middle_uncounted env criteria it r pre post (Or.inr ho)⟩
  intro a
  simp [recordOutcome, h1, h2, human_review, h3]

theorem C10_witness :
    (envW.classify 1 recNoAbs critW =
      some { relevance := .uncertain, confidence := 1, reasoning := "rr" } ∧
      recNoAbs.abstract = none) ∧
    (human_review envW 1 recNoAbs "rr" = none ∧
      (∀ a : Nat → Record → String → HumanChoice,
        recordOutcome { envW with ask := a } critW 1 recNoAbs = .errored) ∧
      tally envW critW 1 ([recRel] ++ recNoAbs :: [recIrr]) =
        tally envW critW 1 ([recRel] ++ [recIrr]) ∧
      iterPrecision envW critW 1 ([recRel] ++ recNoAbs :: [recIrr]) =
        Rat.divInt ((tally envW critW 1 ([recRel] ++ [recIrr])).1 : Int)
          ((([recRel] ++ ([recIrr] : List Record)).length + 1 : Nat) : Int)) :=
  ⟨⟨by decide, by decide⟩,
    C10_none_abstract_escalation envW critW 1 recNoAbs
      { relevance := .uncertain, confidence := 1, reasoning := "rr" }
      [recRel] [recIrr] (by decide) (by decide) (by decide)⟩

end ClaimsFinal

end AutoQuery
